import Mathlib

/-!
Verification development for the `local-ai-package` repository.

Part A embeds the Next.js API proxy handlers found under
`src/research-ui-mvp/pages/api/` (searx, flowise, n8n, sql, neo4j) as pure
Lean functions over a small JSON model.  A handler is modelled as a function
from the upstream HTTP response it receives (and, where the source calls
`JSON.parse` / `r.json()`, an explicit parse function standing for the
JavaScript JSON parser) to the response it sends back to the client.

Part B models the multi-service launch orchestrator described by the
specification (Profile Selector, Environment Overlay Composer, Capability
Patcher, Dependency Sequencer, Process Supervisor).  That component's code
is not part of the source tree here, so the definitions are modelled from
the spec, and an orchestration run is embedded as a pure function producing
a `RunResult` together with an explicit event trace of all external calls.
-/

namespace LocalAI

/-- A JSON value, standing for the JavaScript values moved around by the
handlers (`r.json()`, `JSON.parse`, `res.json`). -/
inductive Json where
  | null : Json
  | bool (b : Bool) : Json
  | num (n : Int) : Json
  | str (s : String) : Json
  | arr (elems : List Json) : Json
  | obj (fields : List (String × Json)) : Json
deriving Repr

mutual

/-- Serialization of a JSON value, standing for what `res.json(x)` puts on
the wire (`JSON.stringify`). -/
def Json.render : Json → String
  | .null => "null"
  | .bool true => "true"
  | .bool false => "false"
  | .num n => toString n
  | .str s => "\x22" ++ s ++ "\x22"
  | .arr elems => "[" ++ Json.renderElems elems ++ "]"
  | .obj fields => "\x7b" ++ Json.renderFields fields ++ "\x7d"

/-- Comma-separated serialization of a JSON array's elements. -/
def Json.renderElems : List Json → String
  | [] => ""
  | [x] => x.render
  | x :: y :: xs => x.render ++ "," ++ Json.renderElems (y :: xs)

/-- Comma-separated serialization of a JSON object's fields. -/
def Json.renderFields : List (String × Json) → String
  | [] => ""
  | [(k, v)] => "\x22" ++ k ++ "\x22:" ++ v.render
  | (k, v) :: f :: fs =>
      "\x22" ++ k ++ "\x22:" ++ v.render ++ "," ++ Json.renderFields (f :: fs)

end

/-- An HTTP response received from an upstream service (`fetch`): a status
code and the raw body text (`r.text()`). -/
structure HttpResponse where
  status : Nat
  body : String
deriving DecidableEq, Repr

/-- The body a handler sends: `res.json(j)` sends a JSON value, `res.send(s)`
sends raw text. -/
inductive SentBody where
  | jsonVal (j : Json) : SentBody
  | textVal (s : String) : SentBody
deriving Repr

/-- The response a handler sends back to its client. -/
structure SentResponse where
  status : Nat
  body : SentBody
deriving Repr

/-- The wire text of a sent body: `res.json` stringifies, `res.send` is raw. -/
def SentBody.wire : SentBody → String
  | .jsonVal j => j.render
  | .textVal s => s

/-- `pages/api/searx.ts`: fetches the upstream search result, parses it as
JSON (`r.json()`, modelled by the explicit `jparse` argument standing for
the JavaScript JSON parser), and replies `res.status(200).json(data)`.
Returns `none` when the upstream body is not JSON (the handler would throw
before sending a response). -/
def searxHandler (jparse : String → Option Json) (r : HttpResponse) :
    Option SentResponse :=
  match jparse r.body with
  | some data => some { status := 200, body := .jsonVal data }
  | none => none

/-- `pages/api/flowise/[id].ts`: posts the request body upstream, reads the
reply text and replies `res.status(r.status).send(text)`. -/
def flowiseHandler (r : HttpResponse) : SentResponse :=
  { status := r.status, body := .textVal r.body }

/-- The n8n webhook handler (second document in `pages/api/flowise/[id].ts`):
posts the request body to the webhook and replies
`res.status(r.status).send(text)`. -/
def n8nHandler (r : HttpResponse) : SentResponse :=
  { status := r.status, body := .textVal r.body }

/-- `pages/api/sql.ts`: posts the SQL to the Supabase REST endpoint, reads
the reply text, then tries `res.status(r.status).json(JSON.parse(text))`
and falls back to `res.status(r.status).send(text)` when parsing throws. -/
def sqlHandler (jparse : String → Option Json) (r : HttpResponse) :
    SentResponse :=
  match jparse r.body with
  | some j => { status := r.status, body := .jsonVal j }
  | none => { status := r.status, body := .textVal r.body }

/-- A handler response is a pure passthrough of the upstream response when
the status codes agree and the body put on the wire is the upstream body. -/
def passthrough (sent : SentResponse) (upstream : HttpResponse) : Prop :=
  sent.status = upstream.status ∧ sent.body.wire = upstream.body

/-! ### The neo4j handler (`pages/api/neo4j.ts`)

The handler opens a driver and a session, runs the cypher query inside a
`try`, answers `res.status(200).json({records})` on success and
`res.status(500).json({error: e.message})` on a thrown error, and in the
`finally` block closes the session and then the driver.  We embed it as the
sequence of observable events it performs, driven by the outcome of
`session.run` (a list of records on success, a thrown message on error). -/

/-- An observable event of the neo4j handler. -/
inductive NeoEvent where
  | runQuery (cypher : String) : NeoEvent
  | respond (status : Nat) (body : Json) : NeoEvent
  | closeSession : NeoEvent
  | closeDriver : NeoEvent
deriving Repr

/-- `pages/api/neo4j.ts`: the event sequence of one request.  `outcome` is
what `await session.run(cypher, params)` does: success carries the records
(`result.records.map(r => r.toObject())`, each already a JSON object),
error carries the thrown `e.message`.  The `finally` block appends the
session close and the driver close on both paths. -/
def neo4jHandler (cypher : String) (outcome : Except String (List Json)) :
    List NeoEvent :=
  (match outcome with
   | .ok records =>
       [NeoEvent.runQuery cypher,
        NeoEvent.respond 200 (.obj [("records", .arr records)])]
   | .error msg =>
       [NeoEvent.runQuery cypher,
        NeoEvent.respond 500 (.obj [("error", .str msg)])])
  ++ [NeoEvent.closeSession, NeoEvent.closeDriver]

/-! ### Part B: the launch orchestrator

The orchestrator core (Configuration Resolver, Profile Selector, Environment
Overlay Composer, Capability Patcher, Dependency Sequencer, Process
Supervisor) is described by the specification but its code is not part of
this source tree; every definition below is modelled from the spec. -/

/-- Modelled from the spec: deployment environment selector (§3),
`private` (dev, all ports open) vs `public` (production, proxy-only). -/
inductive Environment where
  | priv : Environment
  | pub : Environment
deriving DecidableEq, Repr

/-- Modelled from the spec: identifier of a long-running service group
(§3): the foundational data-platform group and the dependent application
group.  One-shot jobs are handled separately (they are run-to-completion
tasks, not groups that stay running). -/
inductive GroupId where
  | platform : GroupId
  | application : GroupId
deriving DecidableEq, Repr

/-- Modelled from the spec: an action of the external process-management
collaborator (§6): `start|stop|pull` on a group. -/
inductive ProcAction where
  | start : ProcAction
  | stop : ProcAction
  | pull : ProcAction
deriving DecidableEq, Repr

/-- Modelled from the spec: the error taxonomy of §7 restricted to what the
modelled pipeline can raise: `UnknownProfile` and `PortConflict` are
topology errors (fatal, pre-empt any start), `ProcessFailed` carries the
group, exit code and diagnostics, `ReadinessTimeout` is the bounded-poll
timeout of §4.5. -/
inductive OrchError where
  | unknownProfile : OrchError
  | portConflict (first second : String) (port : Nat) : OrchError
  | processFailed (group : GroupId) (exitCode : Nat) (diagnostics : String) : OrchError
  | readinessTimeout (group : GroupId) : OrchError
deriving DecidableEq, Repr

/-- Modelled from the spec: which step of the run failed (§3 `RunResult`:
"the first failing step with its associated service/group identifier"). -/
inductive StepId where
  | topology : StepId
  | platformStep : StepId
  | applicationStep : StepId
deriving DecidableEq, Repr

/-- Modelled from the spec: outcome of one orchestration invocation (§3):
success (`Settled`, with the one-shot job warnings of §4.5) or the first
failing step with its error. -/
inductive RunResult where
  | settled (warnings : List String) : RunResult
  | failed (step : StepId) (err : OrchError) : RunResult
deriving DecidableEq, Repr

/-- Modelled from the spec: an observable event of one orchestration run:
an external process-management call (§4.6), a one-shot job invocation, one
poll of a group's readiness predicate (§4.5), or a capability
loosen/restore by the Capability Patcher (§4.4). -/
inductive Event where
  | proc (g : GroupId) (a : ProcAction) : Event
  | job (name : String) : Event
  | poll (g : GroupId) (attempt : Nat) (ok : Bool) : Event
  | capLoosen : Event
  | capRestore : Event
deriving DecidableEq, Repr

/-- Modelled from the spec: the compute-service variant chosen by the
Profile Selector (§4.2): its identifier and the additional environment
settings that variant requires. -/
structure Variant where
  id : String
  extras : List (String × String)
deriving DecidableEq, Repr

/-- Modelled from the spec: the enumerated profile set (§3):
none / cpu / gpu-vendor-a / gpu-vendor-b. -/
def knownProfiles : List String :=
  ["none", "cpu", "gpu-vendor-a", "gpu-vendor-b"]

/-- Modelled from the spec, §4.2 Profile Selector: a deterministic pure
function from the requested profile to the compute-service variant and its
extra settings (profile `none` routes to an externally-run compute backend
via a host alias); any value outside the enumerated set fails with
`UnknownProfile` rather than defaulting. -/
def profileSelector (p : String) : Except OrchError Variant :=
  if p = "none" then
    .ok { id := "compute-external", extras := [("COMPUTE_HOST_ALIAS", "host-gateway")] }
  else if p = "cpu" then
    .ok { id := "compute-cpu", extras := [] }
  else if p = "gpu-vendor-a" then
    .ok { id := "compute-gpu-a", extras := [] }
  else if p = "gpu-vendor-b" then
    .ok { id := "compute-gpu-b", extras := [] }
  else
    .error .unknownProfile

/-- Modelled from the spec, §3 ServiceDefinition: a service's name, image,
declared capability drops, host-exposed ports, and whether it is the
reverse proxy (whose HTTP/HTTPS ports stay exposed in the public
overlay). -/
structure ServiceDef where
  name : String
  image : String
  capDrops : List String
  ports : List Nat
  isProxy : Bool
deriving DecidableEq, Repr

/-- Modelled from the spec, §4.3: the composed topology: the merged service
definitions plus the reverse-proxy routing table (one entry per service
hostname setting, public environment only). -/
structure Topology where
  services : List ServiceDef
  routes : List (String × String)
deriving DecidableEq, Repr

/-- Modelled from the spec, §4.3: first host port claimed by both `a` and
`b`, if any. -/
def portClash (a b : ServiceDef) : Option Nat :=
  a.ports.find? (fun p => p ∈ b.ports)

/-- Modelled from the spec, §4.3: scan the service list for two services
claiming the same host port; reports both names and the port. -/
def findConflict : List ServiceDef → Option (String × String × Nat)
  | [] => none
  | s :: rest =>
      match rest.findSome? (fun t => (portClash s t).map (fun p => (s.name, t.name, p))) with
      | some c => some c
      | none => findConflict rest

/-- Modelled from the spec, §4.3: per-service port exposure: in the private
environment every configured port stays host-exposed; in the public
environment every port is unexposed except the reverse-proxy's. -/
def exposeService (env : Environment) (s : ServiceDef) : ServiceDef :=
  match env with
  | .priv => s
  | .pub => if s.isProxy then s else { s with ports := [] }

/-- Modelled from the spec, §4.3 Environment Overlay Composer: fails with
`PortConflict` (naming both services and the port) when two services claim
the same host port; otherwise merges the base topology with the
environment overlay: public unexposes all non-proxy ports and populates the
proxy routing table from the hostname settings, private keeps all
configured ports with no routing. -/
def composeOverlay (env : Environment) (base : List ServiceDef)
    (hostnames : List (String × String)) : Except OrchError Topology :=
  match findConflict base with
  | some (a, b, p) => .error (.portConflict a b p)
  | none =>
      .ok { services := base.map (exposeService env)
            routes := match env with | .pub => hostnames | .priv => [] }

/-- Modelled from the spec, §4.6 Process Supervisor "start group":
idempotent — starting an already-started group converges to the same
running state and never duplicates entries. -/
def supStart (running : List GroupId) (g : GroupId) : List GroupId :=
  if g ∈ running then running else running ++ [g]

/-- Modelled from the spec, §4.6 Process Supervisor "stop group":
idempotent — stopping an already-stopped group is a no-op. -/
def supStop (running : List GroupId) (g : GroupId) : List GroupId :=
  running.filter (fun x => x ≠ g)

/-- Modelled from the spec, §4.5: the one-shot import/bootstrap jobs
triggered after `ApplicationReady` (workflow import, model pre-fetch). -/
def oneShotJobs : List String :=
  ["workflow-import", "model-prefetch"]

/-- Modelled from the spec, §6: the external world an orchestration run
consumes: the requested profile and environment, the base topology and the
hostname settings, the process-management outcomes (`none` = success,
`some (exitCode, diagnostics)` = `ProcessFailed`), the per-job outcomes,
the readiness predicate per group (indexed by poll attempt), the bounded
poll count, and the first-run indicator consulted by the Capability
Patcher. -/
structure World where
  profile : String
  env : Environment
  baseServices : List ServiceDef
  hostnames : List (String × String)
  startOutcome : GroupId → Option (Nat × String)
  jobOutcome : String → Option (Nat × String)
  ready : GroupId → Nat → Bool
  maxPolls : Nat
  firstRun : Bool

/-- Modelled from the spec, §4.5: bounded readiness polling: poll the
predicate at attempts `i, i+1, ...` while `fuel` lasts, recording one
`poll` event per attempt; returns the event list and whether the predicate
ever returned true. -/
def pollEvents (g : GroupId) (ready : Nat → Bool) : Nat → Nat → List Event × Bool
  | 0, _ => ([], false)
  | fuel + 1, i =>
      if ready i then ([.poll g i true], true)
      else
        let rest := pollEvents g ready fuel (i + 1)
        (.poll g i false :: rest.1, rest.2)

/-- Modelled from the spec, §4.5: the warnings `Settled` carries: one entry
per failed one-shot job (non-fatal, best-effort initializations). -/
def jobWarnings (w : World) : List String :=
  oneShotJobs.filterMap (fun j =>
    match w.jobOutcome j with
    | none => none
    | some (code, diag) =>
        some (j ++ " failed (exit " ++ toString code ++ "): " ++ diag))

/-- Modelled from the spec, §4.5: the one-shot job invocation events. -/
def jobEvents : List Event :=
  oneShotJobs.map .job

/-- Modelled from the spec, §4.5 Dependency Sequencer: start the platform
group, poll its readiness with the bounded budget, then start the
application group, poll its readiness, then run the one-shot jobs
(failures recorded as warnings, never fatal).  Readiness timeout or a
failed group start roll back the already-started groups (best-effort stop,
§7) and report `Failed(step)`.  Returns the run result, the event trace,
and the running state left behind. -/
def seqRun (w : World) (running : List GroupId) :
    RunResult × List Event × List GroupId :=
  match w.startOutcome .platform with
  | some (code, diag) =>
      (.failed .platformStep (.processFailed .platform code diag),
       [.proc .platform .start, .proc .platform .stop],
       supStop (supStart running .platform) .platform)
  | none =>
      let ptr := pollEvents .platform (w.ready .platform) w.maxPolls 0
      if ptr.2 then
        match w.startOutcome .application with
        | some (code, diag) =>
            (.failed .applicationStep (.processFailed .application code diag),
             [.proc .platform .start] ++ ptr.1 ++
               [.proc .application .start, .proc .application .stop,
                .proc .platform .stop],
             supStop (supStop (supStart (supStart running .platform) .application)
               .application) .platform)
        | none =>
            let atr := pollEvents .application (w.ready .application) w.maxPolls 0
            if atr.2 then
              (.settled (jobWarnings w),
               [.proc .platform .start] ++ ptr.1 ++
                 [.proc .application .start] ++ atr.1 ++ jobEvents,
               supStart (supStart running .platform) .application)
            else
              (.failed .applicationStep (.readinessTimeout .application),
               [.proc .platform .start] ++ ptr.1 ++
                 [.proc .application .start] ++ atr.1 ++
                 [.proc .application .stop, .proc .platform .stop],
               supStop (supStop (supStart (supStart running .platform) .application)
                 .application) .platform)
      else
        (.failed .platformStep (.readinessTimeout .platform),
         [.proc .platform .start] ++ ptr.1 ++ [.proc .platform .stop],
         supStop (supStart running .platform) .platform)

/-- Modelled from the spec, §2/§4.4: one orchestration run.  The pipeline
is Profile Selector → Overlay Composer → Capability Patcher → Dependency
Sequencer; configuration/topology errors are reported before any external
process is invoked (§7: empty trace).  On a first run the Capability
Patcher loosens the search service's capability-drop entry before the
sequence and unconditionally restores it afterwards, regardless of the
sequence's outcome (§4.4). -/
def orchestrate (w : World) (running : List GroupId) :
    RunResult × List Event × List GroupId :=
  match profileSelector w.profile with
  | .error e => (.failed .topology e, [], running)
  | .ok _ =>
      match composeOverlay w.env w.baseServices w.hostnames with
      | .error e => (.failed .topology e, [], running)
      | .ok _ =>
          let r := seqRun w running
          if w.firstRun then
            (r.1, .capLoosen :: r.2.1 ++ [.capRestore], r.2.2)
          else
            (r.1, r.2.1, r.2.2)

/-- For the dependency-ordering property: classifies the first "relevant"
event of a trace — an application-group start (bad if it comes first) or a
successful platform readiness poll (the predicate returned true). -/
def appStartBlocked (e : Event) : Option Bool :=
  match e with
  | .proc .application .start => some false
  | .poll .platform _ true => some true
  | _ => none

/-- A trace respects the dependency order when the first relevant event is
a successful platform readiness poll, not an application-group start (true
also when neither occurs). -/
def readyBeforeAppStart (l : List Event) : Bool :=
  match l.findSome? appStartBlocked with
  | some b => b
  | none => true

/-- Recognizes a readiness-poll event of a given group (used to count the
polls a run performed). -/
def isPollOf (g : GroupId) (e : Event) : Bool :=
  match e with
  | .poll g' _ _ => g' = g
  | _ => false

/-! Concrete fixtures used to exercise the theorems on closed inputs. -/

/-- A sample reverse-proxy service definition. -/
def sampleProxy : ServiceDef :=
  { name := "caddy", image := "caddy:2", capDrops := [], ports := [80, 443],
    isProxy := true }

/-- A sample database service definition. -/
def sampleDb : ServiceDef :=
  { name := "postgres", image := "postgres:16", capDrops := [], ports := [5432],
    isProxy := false }

/-- A second sample service claiming the same host port as `sampleDb`. -/
def sampleClash : ServiceDef :=
  { name := "supabase-db", image := "supabase/postgres", capDrops := [],
    ports := [5432], isProxy := false }

/-- A sample world in which every external call succeeds. -/
def sampleWorldOk : World :=
  { profile := "cpu", env := .priv, baseServices := [], hostnames := [],
    startOutcome := fun _ => none, jobOutcome := fun _ => none,
    ready := fun _ _ => true, maxPolls := 1, firstRun := false }

/-- A sample world whose workflow-import job fails. -/
def sampleWorldJobFail : World :=
  { profile := "cpu", env := .priv, baseServices := [], hostnames := [],
    startOutcome := fun _ => none,
    jobOutcome := fun j =>
      if j = "workflow-import" then some (2, "duplicate workflow") else none,
    ready := fun _ _ => true, maxPolls := 1, firstRun := false }

/-- A sample world whose platform readiness predicate never holds. -/
def sampleWorldNeverReady : World :=
  { profile := "cpu", env := .priv, baseServices := [], hostnames := [],
    startOutcome := fun _ => none, jobOutcome := fun _ => none,
    ready := fun _ _ => false, maxPolls := 2, firstRun := false }

/-- A sample world whose base topology has two services claiming port 5432. -/
def sampleWorldConflict : World :=
  { profile := "cpu", env := .pub, baseServices := [sampleDb, sampleClash],
    hostnames := [], startOutcome := fun _ => none, jobOutcome := fun _ => none,
    ready := fun _ _ => true, maxPolls := 1, firstRun := false }

/-! ## Theorems -/

/-! ### Trace lemmas for the sequencer -/

theorem pollEvents_mem (g : GroupId) (r : Nat → Bool) :
    ∀ fuel i, ∀ e ∈ (pollEvents g r fuel i).1, ∃ n b, e = .poll g n b := by
  intro fuel
  induction fuel with
  | zero => intro i e he; simp [pollEvents] at he
  | succ fuel ih =>
      intro i e he
      unfold pollEvents at he
      cases hr : r i with
      | true => rw [hr] at he; simp at he; exact ⟨i, true, he⟩
      | false =>
          rw [hr] at he
          simp only [Bool.false_eq_true, if_false, List.mem_cons] at he
          rcases he with rfl | he
          · exact ⟨i, false, rfl⟩
          · exact ih (i + 1) e he

theorem pollEvents_of_never (g : GroupId) (r : Nat → Bool)
    (hr : ∀ n, r n = false) :
    ∀ fuel i, pollEvents g r fuel i =
      ((List.range' i fuel).map (fun n => .poll g n false), false) := by
  intro fuel
  induction fuel with
  | zero => intro i; simp [pollEvents]
  | succ fuel ih =>
      intro i
      unfold pollEvents
      rw [hr i]
      simp only [Bool.false_eq_true, if_false]
      rw [ih (i + 1), List.range'_succ]
      simp

theorem pollEvents_platform_findSome (r : Nat → Bool) :
    ∀ fuel i, (pollEvents .platform r fuel i).2 = true →
      (pollEvents .platform r fuel i).1.findSome? appStartBlocked = some true := by
  intro fuel
  induction fuel with
  | zero => intro i h; simp [pollEvents] at h
  | succ fuel ih =>
      intro i h
      unfold pollEvents at h ⊢
      cases hr : r i with
      | true => simp [appStartBlocked]
      | false =>
          rw [hr] at h
          simp only [Bool.false_eq_true, if_false] at h ⊢
          rw [List.findSome?_cons_of_isNone _ (by simp [appStartBlocked])]
          exact ih (i + 1) h

theorem findSome?_appStartBlocked_pollEvents_app (r : Nat → Bool) (fuel i : Nat) :
    (pollEvents .application r fuel i).1.findSome? appStartBlocked = none := by
  rw [List.findSome?_eq_none_iff]
  intro e he
  obtain ⟨n, b, rfl⟩ := pollEvents_mem .application r fuel i e he
  cases b <;> rfl

theorem findSome?_appStartBlocked_pollEvents_false (g : GroupId) (r : Nat → Bool)
    (fuel i : Nat) (h : (pollEvents g r fuel i).2 = false) :
    (pollEvents g r fuel i).1.findSome? appStartBlocked = none := by
  induction fuel generalizing i with
  | zero => simp [pollEvents]
  | succ fuel ih =>
      unfold pollEvents at h ⊢
      cases hr : r i with
      | true => rw [hr] at h; simp at h
      | false =>
          rw [hr] at h
          simp only [Bool.false_eq_true, if_false] at h ⊢
          rw [List.findSome?_cons_of_isNone _ (by cases g <;> simp [appStartBlocked])]
          exact ih _ h

theorem findSome?_appStartBlocked_jobEvents :
    jobEvents.findSome? appStartBlocked = none := rfl

theorem seqRun_events (w : World) (running : List GroupId) :
    ∀ e ∈ (seqRun w running).2.1,
      (∃ g a, e = .proc g a) ∨ (∃ j, e = .job j) ∨ (∃ g n b, e = .poll g n b) := by
  intro e he
  unfold seqRun at he
  rcases hsp : w.startOutcome .platform with _ | ⟨code, diag⟩
  · rw [hsp] at he
    simp only at he
    rcases hp : (pollEvents .platform (w.ready .platform) w.maxPolls 0).2 with _ | _
    · rw [hp] at he
      simp only [Bool.false_eq_true, if_false, List.mem_append, List.mem_cons,
        List.not_mem_nil, or_false] at he
      rcases he with (rfl | he) | rfl
      · exact .inl ⟨_, _, rfl⟩
      · rcases pollEvents_mem _ _ _ _ e he with ⟨_n, _b, rfl⟩
        exact .inr (.inr ⟨_, _n, _b, rfl⟩)
      · exact .inl ⟨_, _, rfl⟩
    · rw [hp] at he
      simp only [if_true] at he
      rcases hsa : w.startOutcome .application with _ | ⟨code', diag'⟩
      · rw [hsa] at he
        simp only at he
        rcases ha : (pollEvents .application (w.ready .application) w.maxPolls 0).2 with _ | _
        · rw [ha] at he
          simp only [Bool.false_eq_true, if_false, List.mem_append, List.mem_cons,
            List.not_mem_nil, or_false] at he
          rcases he with (((rfl | he) | rfl) | he) | (rfl | rfl)
          · exact .inl ⟨_, _, rfl⟩
          · rcases pollEvents_mem _ _ _ _ e he with ⟨_n, _b, rfl⟩
            exact .inr (.inr ⟨_, _n, _b, rfl⟩)
          · exact .inl ⟨_, _, rfl⟩
          · rcases pollEvents_mem _ _ _ _ e he with ⟨_n, _b, rfl⟩
            exact .inr (.inr ⟨_, _n, _b, rfl⟩)
          · exact .inl ⟨_, _, rfl⟩
          · exact .inl ⟨_, _, rfl⟩
        · rw [ha] at he
          simp only [if_true, List.mem_append, List.mem_cons,
            List.not_mem_nil, or_false] at he
          rcases he with (((rfl | he) | rfl) | he) | he
          · exact .inl ⟨_, _, rfl⟩
          · rcases pollEvents_mem _ _ _ _ e he with ⟨_n, _b, rfl⟩
            exact .inr (.inr ⟨_, _n, _b, rfl⟩)
          · exact .inl ⟨_, _, rfl⟩
          · rcases pollEvents_mem _ _ _ _ e he with ⟨_n, _b, rfl⟩
            exact .inr (.inr ⟨_, _n, _b, rfl⟩)
          · simp only [jobEvents, oneShotJobs, List.mem_map, List.mem_cons,
              List.not_mem_nil, or_false] at he
            obtain ⟨j, _, rfl⟩ := he
            exact .inr (.inl ⟨j, rfl⟩)
      · rw [hsa] at he
        simp only [List.mem_append, List.mem_cons, List.not_mem_nil, or_false] at he
        rcases he with (rfl | he) | (rfl | rfl | rfl)
        · exact .inl ⟨_, _, rfl⟩
        · rcases pollEvents_mem _ _ _ _ e he with ⟨_n, _b, rfl⟩
          exact .inr (.inr ⟨_, _n, _b, rfl⟩)
        · exact .inl ⟨_, _, rfl⟩
        · exact .inl ⟨_, _, rfl⟩
        · exact .inl ⟨_, _, rfl⟩
  · rw [hsp] at he
    simp only [List.mem_cons, List.not_mem_nil, or_false] at he
    rcases he with rfl | rfl
    · exact .inl ⟨_, _, rfl⟩
    · exact .inl ⟨_, _, rfl⟩

theorem capLoosen_not_mem_seqRun (w : World) (running : List GroupId) :
    Event.capLoosen ∉ (seqRun w running).2.1 := by
  intro h
  rcases seqRun_events w running _ h with ⟨g, a, he⟩ | ⟨j, he⟩ | ⟨g, n, b, he⟩ <;>
    simp at he

theorem seqRun_findSome_appStartBlocked (w : World) (running : List GroupId) :
    (seqRun w running).2.1.findSome? appStartBlocked = none ∨
    (seqRun w running).2.1.findSome? appStartBlocked = some true := by
  unfold seqRun
  rcases hsp : w.startOutcome .platform with _ | ⟨code, diag⟩
  · simp only
    rcases hp : (pollEvents .platform (w.ready .platform) w.maxPolls 0).2 with _ | _
    · left
      simp only [Bool.false_eq_true, if_false, List.findSome?_append]
      rw [List.findSome?_cons_of_isNone _ (by simp [appStartBlocked]),
        findSome?_appStartBlocked_pollEvents_false _ _ _ _ hp]
      rfl
    · right
      simp only [if_true]
      rcases hsa : w.startOutcome .application with _ | ⟨code', diag'⟩
      · simp only
        rcases ha : (pollEvents .application (w.ready .application) w.maxPolls 0).2 with _ | _
        · simp only [Bool.false_eq_true, if_false, List.findSome?_append]
          rw [List.findSome?_cons_of_isNone _ (by simp [appStartBlocked]),
            pollEvents_platform_findSome _ _ _ hp]
          rfl
        · simp only [if_true, List.findSome?_append]
          rw [List.findSome?_cons_of_isNone _ (by simp [appStartBlocked]),
            pollEvents_platform_findSome _ _ _ hp]
          rfl
      · simp only [List.findSome?_append]
        rw [List.findSome?_cons_of_isNone _ (by simp [appStartBlocked]),
          pollEvents_platform_findSome _ _ _ hp]
        rfl
  · left
    rfl

theorem orchestrate_ok (w : World) (running : List GroupId) (v : Variant)
    (t : Topology) (hps : profileSelector w.profile = .ok v)
    (hcp : composeOverlay w.env w.baseServices w.hostnames = .ok t) :
    orchestrate w running =
      if w.firstRun then
        ((seqRun w running).1,
         .capLoosen :: (seqRun w running).2.1 ++ [.capRestore],
         (seqRun w running).2.2)
      else seqRun w running := by
  unfold orchestrate
  rw [hps, hcp]

theorem seqRun_settled (w : World) (running : List GroupId)
    (hsp : w.startOutcome .platform = none)
    (hsa : w.startOutcome .application = none)
    (hrp : (pollEvents .platform (w.ready .platform) w.maxPolls 0).2 = true)
    (hra : (pollEvents .application (w.ready .application) w.maxPolls 0).2 = true) :
    seqRun w running =
      (.settled (jobWarnings w),
       [.proc .platform .start] ++
         (pollEvents .platform (w.ready .platform) w.maxPolls 0).1 ++
         [.proc .application .start] ++
         (pollEvents .application (w.ready .application) w.maxPolls 0).1 ++
         jobEvents,
       supStart (supStart running .platform) .application) := by
  unfold seqRun
  simp [hsp, hsa, hrp, hra]

theorem seqRun_platform_timeout (w : World) (running : List GroupId)
    (hsp : w.startOutcome .platform = none)
    (hnever : ∀ n, w.ready .platform n = false) :
    seqRun w running =
      (.failed .platformStep (.readinessTimeout .platform),
       [.proc .platform .start] ++
         (List.range' 0 w.maxPolls).map (fun n => Event.poll .platform n false) ++
         [.proc .platform .stop],
       supStop (supStart running .platform) .platform) := by
  unfold seqRun
  rw [pollEvents_of_never .platform (w.ready .platform) hnever w.maxPolls 0]
  simp [hsp]

/-- **C3.** In every execution trace of the Dependency Sequencer, the start
call for the application group occurs only after the platform group's
readiness predicate has returned true: scanning any run's trace from the
left, a successful platform readiness poll is always found before any
application-group start event. -/
theorem C3_app_start_after_platform_ready (w : World) (running : List GroupId) :
    readyBeforeAppStart (orchestrate w running).2.1 = true := by
  unfold orchestrate
  rcases hps : profileSelector w.profile with e | v
  · rfl
  · rcases hcp : composeOverlay w.env w.baseServices w.hostnames with e | t
    · rfl
    · simp only
      rcases hfr : w.firstRun with _ | _
      · simp only [Bool.false_eq_true, if_false]
        unfold readyBeforeAppStart
        rcases seqRun_findSome_appStartBlocked w running with h | h <;> rw [h]
      · simp only [if_true]
        unfold readyBeforeAppStart
        rw [List.findSome?_append,
          List.findSome?_cons_of_isNone _
            (show (appStartBlocked Event.capLoosen).isNone from rfl)]
        rcases seqRun_findSome_appStartBlocked w running with h | h <;> rw [h] <;> rfl

/-- **C2.** In every orchestration run in which the Capability Patcher
loosened the capability-drop entry (the trace contains `capLoosen`), the
restrictive state is restored before the orchestrator returns its result:
the trace is exactly the loosening, the sequencer's events, and the final
unconditional restore — on success and on failure runs alike, including
runs in which the patched service's own startup fails. -/
theorem C2_capability_restored (w : World) (running : List GroupId)
    (h : Event.capLoosen ∈ (orchestrate w running).2.1) :
    ∃ mid, (orchestrate w running).2.1 = .capLoosen :: mid ++ [.capRestore] := by
  unfold orchestrate at h ⊢
  rcases hps : profileSelector w.profile with e | v
  · rw [hps] at h; simp at h
  · rw [hps] at h
    rcases hcp : composeOverlay w.env w.baseServices w.hostnames with e | t
    · rw [hcp] at h; simp at h
    · rw [hcp] at h
      simp only at h ⊢
      rcases hfr : w.firstRun with _ | _
      · rw [hfr] at h
        simp only [Bool.false_eq_true, if_false] at h
        exact absurd h (capLoosen_not_mem_seqRun w running)
      · exact ⟨(seqRun w running).2.1, by simp⟩

/-- Witness for C2: a concrete first-run world in which the application
group's startup fails; the trace still ends with the restore. -/
theorem C2_capability_restored_witness :
    ∃ mid,
      (orchestrate
        { profile := "cpu", env := .priv, baseServices := [], hostnames := [],
          startOutcome := fun g => match g with
            | .platform => none
            | .application => some (1, "search init failed"),
          jobOutcome := fun _ => none, ready := fun _ _ => true,
          maxPolls := 1, firstRun := true } []).2.1 =
      .capLoosen :: mid ++ [.capRestore] :=
  C2_capability_restored _ [] (by decide)

/-- **C4.** For every run in which a one-shot job (here the workflow
import) fails with `ProcessFailed` while the platform and application
groups succeed, the run's result is `Settled` with the job failure recorded
as a warning — never `Failed` — and no rollback is triggered (no stop call
appears in the trace). -/
theorem C4_oneshot_failure_nonfatal (w : World) (running : List GroupId)
    (v : Variant) (t : Topology) (code : Nat) (diag : String)
    (hps : profileSelector w.profile = .ok v)
    (hcp : composeOverlay w.env w.baseServices w.hostnames = .ok t)
    (hsp : w.startOutcome .platform = none)
    (hsa : w.startOutcome .application = none)
    (hrp : (pollEvents .platform (w.ready .platform) w.maxPolls 0).2 = true)
    (hra : (pollEvents .application (w.ready .application) w.maxPolls 0).2 = true)
    (hj : w.jobOutcome "workflow-import" = some (code, diag)) :
    (orchestrate w running).1 = .settled (jobWarnings w) ∧
    ("workflow-import failed (exit " ++ toString code ++ "): " ++ diag) ∈
      jobWarnings w ∧
    (∀ g, Event.proc g .stop ∉ (orchestrate w running).2.1) := by
  rw [orchestrate_ok w running v t hps hcp,
    seqRun_settled w running hsp hsa hrp hra]
  refine ⟨?_, ?_, ?_⟩
  · cases w.firstRun <;> rfl
  · simp [jobWarnings, oneShotJobs, hj]
  · intro g hmem
    have hshape : Event.proc g .stop ∉
        [Event.proc .platform .start] ++
        (pollEvents .platform (w.ready .platform) w.maxPolls 0).1 ++
        [Event.proc .application .start] ++
        (pollEvents .application (w.ready .application) w.maxPolls 0).1 ++
        jobEvents := by
      intro he
      simp only [List.mem_append, List.mem_cons, List.not_mem_nil, or_false] at he
      rcases he with (((he | he) | he) | he) | he
      · simp at he
      · obtain ⟨n, b, hb⟩ := pollEvents_mem _ _ _ _ _ he
        simp at hb
      · simp at he
      · obtain ⟨n, b, hb⟩ := pollEvents_mem _ _ _ _ _ he
        simp at hb
      · simp [jobEvents, oneShotJobs] at he
    revert hmem
    cases w.firstRun with
    | true =>
        intro hmem
        rcases List.mem_append.mp hmem with h1 | h1
        · rcases List.mem_cons.mp h1 with h2 | h2
          · exact absurd h2 (by simp)
          · exact hshape h2
        · exact absurd h1 (by simp)
    | false =>
        intro hmem
        exact hshape hmem

/-- Witness for C4: a concrete run whose import job fails while both groups
come up; the result is settled with the warning recorded. -/
theorem C4_oneshot_failure_nonfatal_witness :
    (orchestrate sampleWorldJobFail []).1 =
      .settled (jobWarnings sampleWorldJobFail) ∧
    ("workflow-import failed (exit 2): duplicate workflow") ∈
      jobWarnings sampleWorldJobFail :=
  ⟨(C4_oneshot_failure_nonfatal sampleWorldJobFail []
      { id := "compute-cpu", extras := [] } { services := [], routes := [] }
      2 "duplicate workflow" rfl rfl rfl rfl (by decide) (by decide) rfl).1,
   (C4_oneshot_failure_nonfatal sampleWorldJobFail []
      { id := "compute-cpu", extras := [] } { services := [], routes := [] }
      2 "duplicate workflow" rfl rfl rfl rfl (by decide) (by decide) rfl).2.1⟩

/-- **C9.** Readiness polling always terminates: when the platform
readiness predicate never returns true, the bounded retry count is
exhausted exactly at the configured bound (the trace holds `maxPolls`
platform poll events), the run fails at the platform step with a readiness
timeout, a stop call is issued for the platform group, and no start is
ever issued for the application group. -/
theorem C9_readiness_timeout (w : World) (running : List GroupId)
    (v : Variant) (t : Topology)
    (hps : profileSelector w.profile = .ok v)
    (hcp : composeOverlay w.env w.baseServices w.hostnames = .ok t)
    (hsp : w.startOutcome .platform = none)
    (hnever : ∀ n, w.ready .platform n = false) :
    (orchestrate w running).1 =
      .failed .platformStep (.readinessTimeout .platform) ∧
    (orchestrate w running).2.1.countP (isPollOf .platform) = w.maxPolls ∧
    Event.proc .platform .stop ∈ (orchestrate w running).2.1 ∧
    Event.proc .application .start ∉ (orchestrate w running).2.1 := by
  rw [orchestrate_ok w running v t hps hcp,
    seqRun_platform_timeout w running hsp hnever]
  have hcount : ((List.range' 0 w.maxPolls).map
      (fun n => Event.poll .platform n false)).countP (isPollOf .platform) =
      w.maxPolls := by
    rw [List.countP_eq_length.mpr, List.length_map, List.length_range']
    intro e he
    simp only [List.mem_map] at he
    obtain ⟨n, _, rfl⟩ := he
    simp [isPollOf]
  refine ⟨?_, ?_, ?_, ?_⟩
  · cases w.firstRun <;> rfl
  · cases w.firstRun <;>
      simp [List.countP_cons, List.countP_append, hcount, isPollOf]
  · cases w.firstRun <;> simp
  · cases w.firstRun <;> intro hmem <;> simp at hmem

/-- Witness for C9: a never-ready platform with a poll budget of 2. -/
theorem C9_readiness_timeout_witness :
    (orchestrate sampleWorldNeverReady []).1 =
      .failed .platformStep (.readinessTimeout .platform) ∧
    (orchestrate sampleWorldNeverReady []).2.1.countP (isPollOf .platform) = 2 :=
  ⟨(C9_readiness_timeout sampleWorldNeverReady []
      { id := "compute-cpu", extras := [] } { services := [], routes := [] }
      rfl rfl rfl (fun _ => rfl)).1,
   (C9_readiness_timeout sampleWorldNeverReady []
      { id := "compute-cpu", extras := [] } { services := [], routes := [] }
      rfl rfl rfl (fun _ => rfl)).2.1⟩

/-- **C8.** Invoking the orchestrator's start operation twice in sequence
with unchanged configuration is idempotent: both invocations settle, the
running state after the second invocation equals the state after the
first, and that state holds no duplicated service-group entries. -/
theorem C8_start_idempotent (w : World) (v : Variant) (t : Topology)
    (hps : profileSelector w.profile = .ok v)
    (hcp : composeOverlay w.env w.baseServices w.hostnames = .ok t)
    (hsp : w.startOutcome .platform = none)
    (hsa : w.startOutcome .application = none)
    (hrp : (pollEvents .platform (w.ready .platform) w.maxPolls 0).2 = true)
    (hra : (pollEvents .application (w.ready .application) w.maxPolls 0).2 = true) :
    (orchestrate w []).1 = .settled (jobWarnings w) ∧
    (orchestrate w (orchestrate w []).2.2).1 = .settled (jobWarnings w) ∧
    (orchestrate w (orchestrate w []).2.2).2.2 = (orchestrate w []).2.2 ∧
    (orchestrate w []).2.2.Nodup := by
  have h1 := orchestrate_ok w [] v t hps hcp
  rw [seqRun_settled w [] hsp hsa hrp hra] at h1
  have hstate1 : (orchestrate w []).2.2 = [.platform, .application] := by
    rw [h1]; cases w.firstRun <;> rfl
  have h2 := orchestrate_ok w [GroupId.platform, GroupId.application] v t hps hcp
  rw [seqRun_settled w [GroupId.platform, GroupId.application] hsp hsa hrp hra] at h2
  refine ⟨?_, ?_, ?_, ?_⟩
  · rw [h1]; cases w.firstRun <;> rfl
  · rw [hstate1, h2]; cases w.firstRun <;> rfl
  · rw [hstate1, h2]; cases w.firstRun <;> rfl
  · rw [hstate1]; decide

/-- Witness for C8: a concrete all-healthy world started twice. -/
theorem C8_start_idempotent_witness :
    (orchestrate sampleWorldOk (orchestrate sampleWorldOk []).2.2).2.2 =
      (orchestrate sampleWorldOk []).2.2 ∧
    (orchestrate sampleWorldOk []).2.2.Nodup :=
  ⟨(C8_start_idempotent sampleWorldOk
      { id := "compute-cpu", extras := [] } { services := [], routes := [] }
      rfl rfl rfl rfl (by decide) (by decide)).2.2.1,
   (C8_start_idempotent sampleWorldOk
      { id := "compute-cpu", extras := [] } { services := [], routes := [] }
      rfl rfl rfl rfl (by decide) (by decide)).2.2.2⟩

/-! ### Port-conflict detection lemmas -/

theorem portClash_isSome {a b : ServiceDef} {p : Nat}
    (ha : p ∈ a.ports) (hb : p ∈ b.ports) : (portClash a b).isSome := by
  unfold portClash
  rw [List.find?_isSome]
  exact ⟨p, ha, by simpa using hb⟩

theorem portClash_spec {a b : ServiceDef} {p : Nat}
    (h : portClash a b = some p) : p ∈ a.ports ∧ p ∈ b.ports :=
  ⟨List.mem_of_find?_eq_some h, by simpa using List.find?_some h⟩

theorem findConflict_sound :
    ∀ {l : List ServiceDef} {a b : String} {q : Nat},
      findConflict l = some (a, b, q) →
      ∃ s1, s1 ∈ l ∧ ∃ s2, s2 ∈ l ∧ a = s1.name ∧ b = s2.name ∧
        q ∈ s1.ports ∧ q ∈ s2.ports := by
  intro l
  induction l with
  | nil => intro a b q h; simp [findConflict] at h
  | cons s rest ih =>
      intro a b q h
      unfold findConflict at h
      cases hf : rest.findSome?
          (fun t => (portClash s t).map (fun p => (s.name, t.name, p))) with
      | some c =>
          rw [hf] at h
          simp only [Option.some.injEq] at h
          subst h
          obtain ⟨t, ht, hsome⟩ := List.exists_of_findSome?_eq_some hf
          cases hpc : portClash s t with
          | none => rw [hpc] at hsome; simp at hsome
          | some p =>
              rw [hpc] at hsome
              have hsome' : (s.name, t.name, p) = (a, b, q) := by
                simpa using hsome
              simp only [Prod.mk.injEq] at hsome'
              obtain ⟨rfl, rfl, rfl⟩ := hsome'
              exact ⟨s, List.mem_cons_self s rest, t, List.mem_cons_of_mem s ht,
                rfl, rfl, (portClash_spec hpc).1, (portClash_spec hpc).2⟩
      | none =>
          rw [hf] at h
          simp only at h
          obtain ⟨s1, h1, s2, h2, hrest⟩ := ih h
          exact ⟨s1, List.mem_cons_of_mem s h1, s2,
            List.mem_cons_of_mem s h2, hrest⟩

theorem findConflict_complete :
    ∀ {l : List ServiceDef} {s1 s2 : ServiceDef} {p : Nat},
      s1 ∈ l → s2 ∈ l → s1.name ≠ s2.name → p ∈ s1.ports → p ∈ s2.ports →
      (findConflict l).isSome := by
  intro l
  induction l with
  | nil => intro s1 s2 p h1 _ _ _ _; simp at h1
  | cons s rest ih =>
      intro s1 s2 p h1 h2 hne hp1 hp2
      unfold findConflict
      cases hf : rest.findSome?
          (fun t => (portClash s t).map (fun p => (s.name, t.name, p))) with
      | some c => simp
      | none =>
          simp only
          rcases List.mem_cons.mp h1 with rfl | h1r
          · rcases List.mem_cons.mp h2 with rfl | h2r
            · exact absurd rfl hne
            · exfalso
              have hnone := List.findSome?_eq_none_iff.mp hf s2 h2r
              cases hpc : portClash s1 s2 with
              | some q => rw [hpc] at hnone; simp at hnone
              | none =>
                  have hs := portClash_isSome hp1 hp2
                  rw [hpc] at hs; simp at hs
          · rcases List.mem_cons.mp h2 with rfl | h2r
            · exfalso
              have hnone := List.findSome?_eq_none_iff.mp hf s1 h1r
              cases hpc : portClash s2 s1 with
              | some q => rw [hpc] at hnone; simp at hnone
              | none =>
                  have hs := portClash_isSome hp2 hp1
                  rw [hpc] at hs; simp at hs
            · exact ih h1r h2r hne hp1 hp2

/-- **C6.** For every topology in which two distinct services claim the
same host port, the run fails with `PortConflict` naming two conflicting
services and the shared port, and the trace is empty: no
process-management call (start, stop or pull) and no job is issued before
the failure is reported. -/
theorem C6_port_conflict (w : World) (running : List GroupId) (v : Variant)
    (hps : profileSelector w.profile = .ok v)
    (s1 s2 : ServiceDef) (h1 : s1 ∈ w.baseServices) (h2 : s2 ∈ w.baseServices)
    (hne : s1.name ≠ s2.name) (p : Nat)
    (hp1 : p ∈ s1.ports) (hp2 : p ∈ s2.ports) :
    ∃ a b q, orchestrate w running =
        (.failed .topology (.portConflict a b q), [], running) ∧
      ∃ t1, t1 ∈ w.baseServices ∧ ∃ t2, t2 ∈ w.baseServices ∧
        a = t1.name ∧ b = t2.name ∧ q ∈ t1.ports ∧ q ∈ t2.ports := by
  obtain ⟨⟨a, b, q⟩, hc⟩ := Option.isSome_iff_exists.mp
    (findConflict_complete h1 h2 hne hp1 hp2)
  obtain ⟨t1, ht1, t2, ht2, hrest⟩ := findConflict_sound hc
  refine ⟨a, b, q, ?_, t1, ht1, t2, ht2, hrest⟩
  unfold orchestrate
  rw [hps]
  unfold composeOverlay
  rw [hc]

/-- Witness for C6: two databases both claiming host port 5432. -/
theorem C6_port_conflict_witness :
    ∃ a b q, orchestrate sampleWorldConflict [] =
        (.failed .topology (.portConflict a b q), [], []) ∧
      ∃ t1, t1 ∈ sampleWorldConflict.baseServices ∧
        ∃ t2, t2 ∈ sampleWorldConflict.baseServices ∧
          a = t1.name ∧ b = t2.name ∧ q ∈ t1.ports ∧ q ∈ t2.ports :=
  C6_port_conflict sampleWorldConflict []
    { id := "compute-cpu", extras := [] } rfl
    sampleDb sampleClash (by decide) (by decide) (by decide)
    5432 (by decide) (by decide)

/-- **C1.** The claim states that every proxy handler (searx, flowise/n8n,
sql) sends back exactly the upstream status and body.  This is false for
the searx handler, which hard-codes `res.status(200)`: on an upstream reply
with status 500 and body `null`, the handler replies with status 200. -/
theorem C1_searx_not_passthrough :
    searxHandler (fun _ => some .null) ⟨500, "null"⟩ =
      some ⟨200, .jsonVal .null⟩ ∧
    ¬ passthrough ⟨200, .jsonVal .null⟩ ⟨500, "null"⟩ := by
  refine ⟨rfl, fun h => ?_⟩
  have := h.1
  simp at this

/-- **C1 (amended).** The flowise and n8n handlers are pure passthroughs of
the upstream status and body; the sql handler always preserves the upstream
status and sends the body's parsed JSON value when the body parses and the
raw text otherwise; the searx handler sends the upstream's parsed JSON body
but always replies with status 200, regardless of the upstream status. -/
theorem C1_handlers_amended :
    (∀ r, passthrough (flowiseHandler r) r) ∧
    (∀ r, passthrough (n8nHandler r) r) ∧
    (∀ jp r, (sqlHandler jp r).status = r.status ∧
        (jp r.body = none → sqlHandler jp r = ⟨r.status, .textVal r.body⟩) ∧
        (∀ j, jp r.body = some j → sqlHandler jp r = ⟨r.status, .jsonVal j⟩)) ∧
    (∀ jp r s, searxHandler jp r = some s →
        s.status = 200 ∧ ∃ j, jp r.body = some j ∧ s.body = .jsonVal j) := by
  refine ⟨fun r => ⟨rfl, rfl⟩, fun r => ⟨rfl, rfl⟩, fun jp r => ?_, fun jp r s hs => ?_⟩
  · refine ⟨?_, fun hn => ?_, fun j hj => ?_⟩
    · unfold sqlHandler
      cases jp r.body <;> rfl
    · simp [sqlHandler, hn]
    · simp [sqlHandler, hj]
  · unfold searxHandler at hs
    cases hj : jp r.body with
    | none => rw [hj] at hs; exact absurd hs (by simp)
    | some j =>
        rw [hj] at hs
        simp only [Option.some.injEq] at hs
        subst hs
        exact ⟨rfl, j, rfl, rfl⟩

/-- Witness for C1 (amended): the concrete behaviors at explicit inputs. -/
theorem C1_handlers_amended_witness :
    passthrough (flowiseHandler ⟨404, "not found"⟩) ⟨404, "not found"⟩ ∧
    sqlHandler (fun _ => none) ⟨500, "boom"⟩ = ⟨500, .textVal "boom"⟩ ∧
    (⟨200, .jsonVal .null⟩ : SentResponse).status = 200 :=
  ⟨C1_handlers_amended.1 ⟨404, "not found"⟩,
   (C1_handlers_amended.2.2.1 (fun _ => none) ⟨500, "boom"⟩).2.1 rfl,
   (C1_handlers_amended.2.2.2 (fun _ => some .null) ⟨500, "null"⟩
      ⟨200, .jsonVal .null⟩ rfl).1⟩

/-- **C10.** For every request to the neo4j handler, the session and the
driver are closed before the handler returns, on both the success and the
error path (they are the final two events of every trace); on success the
response is status 200 with the records as `{records}`, and on a thrown
error the response is status 500 with `{error: message}`. -/
theorem C10_neo4j_closes_and_responds (cypher : String)
    (outcome : Except String (List Json)) :
    (∃ pre, neo4jHandler cypher outcome =
        pre ++ [NeoEvent.closeSession, NeoEvent.closeDriver]) ∧
    (∀ records, outcome = .ok records →
        neo4jHandler cypher outcome =
          [.runQuery cypher, .respond 200 (.obj [("records", .arr records)]),
           .closeSession, .closeDriver]) ∧
    (∀ msg, outcome = .error msg →
        neo4jHandler cypher outcome =
          [.runQuery cypher, .respond 500 (.obj [("error", .str msg)]),
           .closeSession, .closeDriver]) := by
  refine ⟨?_, ?_, ?_⟩
  · cases outcome with
    | ok records => exact ⟨_, rfl⟩
    | error msg => exact ⟨_, rfl⟩
  · rintro records rfl; rfl
  · rintro msg rfl; rfl

/-- Witness for C10: the error-path trace at an explicit input. -/
theorem C10_neo4j_witness :
    neo4jHandler "MATCH (n) RETURN n" (.error "boom") =
      [.runQuery "MATCH (n) RETURN n",
       .respond 500 (.obj [("error", .str "boom")]),
       .closeSession, .closeDriver] :=
  (C10_neo4j_closes_and_responds "MATCH (n) RETURN n" (.error "boom")).2.2
    "boom" rfl

/-- **C7.** The Profile Selector is a pure function of the requested
profile: every profile in the enumerated set maps to a defined variant
whose extra settings are injected exactly once (no duplicated setting
keys), and every value outside the set fails with `UnknownProfile` rather
than defaulting. -/
theorem C7_profile_selector :
    (∀ p ∈ knownProfiles,
        ∃ v, profileSelector p = .ok v ∧ (v.extras.map Prod.fst).Nodup) ∧
    (∀ p, p ∉ knownProfiles → profileSelector p = .error .unknownProfile) := by
  constructor
  · intro p hp
    simp only [knownProfiles, List.mem_cons, List.not_mem_nil, or_false] at hp
    rcases hp with rfl | rfl | rfl | rfl
    · exact ⟨_, rfl, by decide⟩
    · exact ⟨_, rfl, by decide⟩
    · exact ⟨_, rfl, by decide⟩
    · exact ⟨_, rfl, by decide⟩
  · intro p hp
    simp only [knownProfiles, List.mem_cons, List.not_mem_nil, or_false,
      not_or] at hp
    obtain ⟨h1, h2, h3, h4⟩ := hp
    simp [profileSelector, h1, h2, h3, h4]

/-- Witness for C7: a known profile resolves, an unknown one is refused. -/
theorem C7_profile_selector_witness :
    (∃ v, profileSelector "cpu" = .ok v ∧ (v.extras.map Prod.fst).Nodup) ∧
    profileSelector "tpu" = .error .unknownProfile :=
  ⟨C7_profile_selector.1 "cpu" (by decide),
   C7_profile_selector.2 "tpu" (by decide)⟩

/-- **C5.** For every resolved configuration the composed topology
satisfies: in the public environment no service port other than the
reverse-proxy's is host-exposed (every non-proxy service has an empty port
list), and in the private environment every configured service port is
host-exposed at its configured value (the service list is exactly the
configured one). -/
theorem C5_overlay_ports (base : List ServiceDef)
    (hostnames : List (String × String)) :
    (∀ t, composeOverlay .pub base hostnames = .ok t →
        ∀ s ∈ t.services, s.isProxy = false → s.ports = []) ∧
    (∀ t, composeOverlay .priv base hostnames = .ok t → t.services = base) := by
  constructor
  · intro t ht s hs hproxy
    unfold composeOverlay at ht
    rcases hfc : findConflict base with _ | ⟨a, b, p⟩
    · rw [hfc] at ht
      simp only [Except.ok.injEq] at ht
      subst ht
      simp only [List.mem_map] at hs
      obtain ⟨s0, _, rfl⟩ := hs
      unfold exposeService at hproxy ⊢
      rcases h0 : s0.isProxy with _ | _
      · simp [h0]
      · simp [h0] at hproxy
    · rw [hfc] at ht
      exact absurd ht (by simp)
  · intro t ht
    unfold composeOverlay at ht
    rcases hfc : findConflict base with _ | ⟨a, b, p⟩
    · rw [hfc] at ht
      simp only [Except.ok.injEq] at ht
      subst ht
      simp only []
      have : base.map (exposeService .priv) = base.map id := rfl
      rw [this, List.map_id]
    · rw [hfc] at ht
      exact absurd ht (by simp)

/-- Witness for C5: the public overlay of a proxy+database topology hides
the database port; the private overlay keeps the configured services. -/
theorem C5_overlay_ports_witness :
    ({ name := "postgres", image := "postgres:16", capDrops := [],
       ports := [], isProxy := false } : ServiceDef).ports = [] ∧
    ({ services := [sampleProxy, sampleDb], routes := [] } : Topology).services =
      [sampleProxy, sampleDb] :=
  ⟨(C5_overlay_ports [sampleProxy, sampleDb] [("n8n", "n8n.example.com")]).1
      { services := [sampleProxy,
          { name := "postgres", image := "postgres:16", capDrops := [],
            ports := [], isProxy := false }],
        routes := [("n8n", "n8n.example.com")] }
      rfl
      { name := "postgres", image := "postgres:16", capDrops := [],
        ports := [], isProxy := false }
      (by decide) rfl,
   (C5_overlay_ports [sampleProxy, sampleDb] []).2
      { services := [sampleProxy, sampleDb], routes := [] } rfl⟩

end LocalAI
